import Mathlib

/-!
# tibctl: environment binding and configuration resolution

A shallow embedding of `internal/cmd/cmd_root.go` and `internal/cmd/flags.go`.

* Go strings are modelled as lists of runes (`GoString := List Char`), that is
  as valid UTF-8 text.
* The functions of Go's standard library that the code calls (`strings.Split`,
  `strings.HasPrefix`, ...) are modelled in the namespaces `strings`,
  `unicode`, `errors`, for the argument shapes the code uses (a one-rune
  separator, one-rune replacement).
* A run-time panic of an index expression `a[i]` is an explicit result
  (`Except Panic`), so that "does not panic" is a statement one can prove.
* The calls the code makes into `viper` are recorded in the state they are
  made on: the list of `BindEnv` registrations, and the settings handed to
  `SetConfigFile`, `AddConfigPath`, `SetConfigType`, `SetConfigName`.
-/

namespace Tibctl

/-- A Go string, as its sequence of runes. -/
abbrev GoString := List Char

/-- Go's case-mapping tables for the runes above U+007F (package `unicode`,
not part of this repository): taken as a parameter. -/
structure CaseTables where
  /-- Lower-case mapping of a rune above U+007F. -/
  toLower : Char → Char
  /-- Upper-case mapping of a rune above U+007F. -/
  toUpper : Char → Char

/-- A case table that leaves every rune above U+007F unchanged. It is used to
evaluate the definitions on ASCII inputs, where the tables are not consulted. -/
def asciiCase : CaseTables := ⟨id, id⟩

deriving instance DecidableEq for Except

/-- A run-time panic. -/
inductive Panic where
  /-- An index expression `a[i]` with `i` outside `0 .. len(a)-1`. -/
  | indexOutOfRange (i len : Nat)
  deriving DecidableEq, Repr

/-- A Go `error` value built by `errors.New`. -/
structure GoError where
  /-- The text of the error. -/
  msg : GoString
  deriving DecidableEq, Repr

/-- The index expression `a[i]`: it panics when `i` is out of range. -/
def index {α : Type} (a : List α) (i : Nat) : Except Panic α :=
  match a.get? i with
  | some x => .ok x
  | none => .error (.indexOutOfRange i a.length)

namespace unicode

/-- The constant `unicode.MaxASCII`. -/
def MaxASCII : Nat := 0x7F

/-- Go's `unicode.ToLower`: ASCII runes are mapped directly, the others through the tables. -/
def ToLower (T : CaseTables) (r : Char) : Char :=
  if r.toNat ≤ MaxASCII then
    if 'A'.toNat ≤ r.toNat ∧ r.toNat ≤ 'Z'.toNat then Char.ofNat (r.toNat + ('a'.toNat - 'A'.toNat)) else r
  else T.toLower r

/-- Go's `unicode.ToUpper`: ASCII runes are mapped directly, the others through the tables. -/
def ToUpper (T : CaseTables) (r : Char) : Char :=
  if r.toNat ≤ MaxASCII then
    if 'a'.toNat ≤ r.toNat ∧ r.toNat ≤ 'z'.toNat then Char.ofNat (r.toNat - ('a'.toNat - 'A'.toNat)) else r
  else T.toUpper r

end unicode

namespace strings

/-- Go's `strings.HasPrefix`. -/
def HasPrefix (s pre : GoString) : Bool := pre.isPrefixOf s

/-- Go's `strings.TrimPrefix`: `s` without the leading `pre`, or `s` itself. -/
def TrimPrefix (s pre : GoString) : GoString :=
  if HasPrefix s pre then s.drop pre.length else s

/-- Go's `strings.Split(s, sep)` for a separator of one rune: the pieces of
`s` between the occurrences of `sep`, one more than there are occurrences. -/
def Split : GoString → Char → List GoString
  | [], _ => [[]]
  | c :: s, sep =>
    if c = sep then [] :: Split s sep
    else
      match Split s sep with
      | [] => [[c]]
      | p :: ps => (c :: p) :: ps

/-- Go's `strings.ReplaceAll(s, old, new)` for `old` and `new` of one rune each. -/
def ReplaceAll (s : GoString) (old new : Char) : GoString :=
  s.map (fun c => if c = old then new else c)

/-- Go's `strings.ToLower`: every rune mapped by `unicode.ToLower`. -/
def ToLower (T : CaseTables) (s : GoString) : GoString := s.map (unicode.ToLower T)

/-- Go's `strings.ToUpper`: every rune mapped by `unicode.ToUpper`. -/
def ToUpper (T : CaseTables) (s : GoString) : GoString := s.map (unicode.ToUpper T)

end strings

namespace errors

/-- Go's `errors.New`. -/
def New (text : GoString) : GoError := ⟨text⟩

end errors

/-! ## Constants of `cmd_root.go` -/

/-- The constant `defaultProfile`. -/
def defaultProfile : GoString := "default".toList
/-- The constant `envPrefix`. -/
def envPrefix : GoString := "TIBCTL".toList
/-- The constant `envTemplateConfigFile`. -/
def envTemplateConfigFile : GoString := "TIBCTL_CONFIG_FILE".toList
/-- The constant `envTemplateProfile`. -/
def envTemplateProfile : GoString := "TIBCTL_PROFILE".toList
/-- The constant `envXDGConfigHome`. -/
def envXDGConfigHome : GoString := "XDG_CONFIG_HOME".toList
/-- The constant `optSecret`. -/
def optSecret : GoString := "secret".toList
/-- The constant `optBaseURL`. -/
def optBaseURL : GoString := "base-url".toList
/-- The constant `optConfigFile`. -/
def optConfigFile : GoString := "config-file".toList
/-- The constant `optProfile`. -/
def optProfile : GoString := "profile".toList
/-- The constant `pathConfigFile`. -/
def pathConfigFile : GoString := "/etc/tibctl".toList
/-- The constant `pathTemplate`. -/
def pathTemplate : GoString := "tibctl".toList

/-! ## Environment binder -/

/-- The function `flagToEnv`: dashes become underscores, the name is
upper-cased and `fmt.Sprintf("%s_%s", envPrefix, env)` puts the prefix in front. -/
def flagToEnv (T : CaseTables) (env : GoString) : GoString :=
  let env := strings.ReplaceAll env '-' '_'
  let env := strings.ToUpper T env
  envPrefix ++ "_".toList ++ env

/-- The function `envToFlag`. The Go result `(string, error)` is the pair of
the string and the optional error. -/
def envToFlag (T : CaseTables) (env : GoString) : Except Panic (GoString × Option GoError) := do
  let env := strings.TrimPrefix env (envPrefix ++ "_".toList)
  let parts := strings.Split env '='
  if parts.length ≠ 2 then
    return ([], some (errors.New "Invalid env var".toList))
  let env := strings.ToLower T (← index parts 0)
  let env := strings.ReplaceAll env '_' '-'
  return (env, none)

/-- One registration made by `viper.BindEnv(key, name)`: the key and the name
of the environment variable bound to it. -/
abbrev Binding := GoString × GoString

/-- The loop of `viperBindEnv` over the entries of `os.Environ()`, threading
the registrations made so far. `continue` is the recursive call on the rest. -/
def viperBindEnvLoop (T : CaseTables) : List GoString → List Binding → Except Panic (List Binding)
  | [], bound => .ok bound
  | v :: rest, bound => do
    let parts := strings.Split v '='
    if parts.length ≠ 2 then
      viperBindEnvLoop T rest bound
    else
      if !strings.HasPrefix (← index parts 0) (envPrefix ++ "_".toList) then
        viperBindEnvLoop T rest bound
      else
        let (env, err) ← envToFlag T v
        if err ≠ none then
          viperBindEnvLoop T rest bound
        else
          viperBindEnvLoop T rest (bound ++ [(env, ← index parts 0)])

/-- The function `viperBindEnv`, on the list `environ` returned by
`os.Environ()`: the registrations it makes with `viper.BindEnv`, in order. -/
def viperBindEnv (T : CaseTables) (environ : List GoString) : Except Panic (List Binding) :=
  viperBindEnvLoop T environ []

/-! ## Configuration resolver -/

/-- What has been handed to the package-level viper instance by its setters:
the argument of the last `SetConfigFile`, the arguments of `AddConfigPath` in
the order of the calls, and the arguments of the last `SetConfigType`,
`SetConfigName` and `SetEnvPrefix`. -/
structure Viper where
  /-- The file given to `viper.SetConfigFile`. -/
  configFile : GoString
  /-- The directories given to `viper.AddConfigPath`, oldest first. -/
  configPaths : List GoString
  /-- The type given to `viper.SetConfigType`. -/
  configType : GoString
  /-- The base name given to `viper.SetConfigName`. -/
  configName : GoString
  /-- The prefix given to `viper.SetEnvPrefix`. -/
  envPrefix : GoString
  deriving DecidableEq, Repr

namespace Viper

/-- The call `viper.SetConfigFile(in)`. -/
def SetConfigFile (v : Viper) (path : GoString) : Viper := { v with configFile := path }

/-- The call `viper.AddConfigPath(in)`. -/
def AddConfigPath (v : Viper) (path : GoString) : Viper :=
  { v with configPaths := v.configPaths ++ [path] }

/-- The call `viper.SetConfigType(in)`. -/
def SetConfigType (v : Viper) (type : GoString) : Viper := { v with configType := type }

/-- The call `viper.SetConfigName(in)`. -/
def SetConfigName (v : Viper) (name : GoString) : Viper := { v with configName := name }

/-- The call `viper.SetEnvPrefix(in)`. -/
def SetEnvPrefix (v : Viper) (pre : GoString) : Viper := { v with envPrefix := pre }

end Viper

/-- An error returned by `viper.ReadInConfig`. -/
structure ReadError where
  /-- Whether the type assertion `err.(viper.ConfigFileNotFoundError)` succeeds. -/
  isConfigFileNotFound : Bool
  /-- The text `err.Error()`. -/
  text : GoString
  deriving DecidableEq, Repr

/-- The process ending through `os.Exit`. -/
structure Exit where
  /-- The exit status. -/
  code : Nat
  /-- The operands of the `fmt.Fprintln(os.Stderr, ...)` that precedes the exit. -/
  stderr : List GoString
  deriving DecidableEq, Repr

/-- The surroundings of `initConfig`: the outcome of each call it makes outside
the package. -/
structure OS where
  /-- The function `os.Getenv`: the value of a variable, empty when it is unset. -/
  Getenv : GoString → GoString
  /-- The result `(dir, err)` of `os.UserConfigDir()`. -/
  UserConfigDir : GoString × Option GoError
  /-- The function `filepath.Join` on two elements. -/
  Join : GoString → GoString → GoString
  /-- The error, if any, of `viper.ReadInConfig()` for the given settings. -/
  ReadInConfig : Viper → Option ReadError

namespace cobra

/-- The function `cobra.CheckErr`: nothing for a nil error, otherwise
`fmt.Fprintln(os.Stderr, "Error:", msg)` and `os.Exit(1)`. -/
def CheckErr (msg : Option GoError) : Except Exit Unit :=
  match msg with
  | none => .ok ()
  | some e => .error ⟨1, ["Error:".toList, e.msg]⟩

end cobra

/-- The function `initConfig`. `configFile` and `profile` are the package
variables the flags are bound to, `configFormatYAML` the constant of that name
(declared outside the files at hand). The result is the settings handed to
viper and the operands of each `fmt.Println`, or the exit of the process. -/
def initConfig (os : OS) (configFormatYAML configFile profile : GoString) (viper : Viper) :
    Except Exit (Viper × List (List GoString)) := do
  let viper ←
    if configFile ≠ [] then
      pure (viper.SetConfigFile configFile)
    else
      let configFile := os.Getenv envTemplateConfigFile
      if configFile ≠ [] then
        pure (viper.SetConfigFile configFile)
      else do
        let configHome := os.Getenv envXDGConfigHome
        let configHome ←
          if configHome = [] then do
            let (configHome, err) := os.UserConfigDir
            cobra.CheckErr err
            pure configHome
          else pure configHome
        let viper := viper.AddConfigPath (os.Join configHome pathTemplate)
        let viper := viper.AddConfigPath pathConfigFile
        let viper := viper.SetConfigType configFormatYAML
        let viper := viper.SetConfigName defaultProfile
        let profileEnv := os.Getenv envTemplateProfile
        let viper := if profileEnv ≠ [] then viper.SetConfigName profileEnv else viper
        let viper := if profile ≠ [] then viper.SetConfigName profile else viper
        pure viper
  match os.ReadInConfig viper with
  | some err =>
    if !err.isConfigFileNotFound then
      pure (viper, [["Found error: ".toList, err.text]])
    else
      pure (viper, [])
  | none => pure (viper, [])

/-- A flag registered on a flag set: name, shorthand, default value, usage. -/
structure Flag where
  /-- The long name. -/
  name : GoString
  /-- The one-letter shorthand, or empty. -/
  shorthand : GoString
  /-- The default value. -/
  defValue : GoString
  /-- The usage text. -/
  usage : GoString
  deriving DecidableEq, Repr

/-- The option `withGlobalFlags()` applied to a command with the persistent
flags `flags`: it registers four string flags, `profile` bound to the variable
`profile` and `config-file` bound to the variable `configFile`, and sets the
environment prefix of viper. -/
def withGlobalFlags (flags : List Flag) (viper : Viper) : List Flag × Viper :=
  let flags := flags ++ [⟨optSecret, [], [], "Access token".toList⟩]
  let flags := flags ++ [⟨optBaseURL, [], [], "Base URL".toList⟩]
  let flags := flags ++ [⟨optProfile, [], defaultProfile, "Profile".toList⟩]
  let flags := flags ++ [⟨optConfigFile, "c".toList, [], "Configuration file".toList⟩]
  (flags, viper.SetEnvPrefix envPrefix)

/-- The value of the variable a string flag is bound to once the command line
is parsed: the value given on the command line, or the registered default. -/
def flagValue (flags : List Flag) (name : GoString) (given : Option GoString) : GoString :=
  match given with
  | some value => value
  | none =>
    match flags.find? (fun f => f.name == name) with
    | some f => f.defValue
    | none => []

/-- An environment given by a list of `(name, value)` pairs, a result of
`os.UserConfigDir` and a result of `viper.ReadInConfig`; `filepath.Join` puts
a slash between its two elements. -/
def osOf (vars : List (GoString × GoString)) (userConfigDir : GoString × Option GoError)
    (read : Option ReadError) : OS where
  Getenv := fun name => (vars.lookup name).getD []
  UserConfigDir := userConfigDir
  Join := fun dir file => dir ++ "/".toList ++ file
  ReadInConfig := fun _ => read

/-- The settings of a viper instance nothing has been handed to. -/
def Viper.fresh : Viper := ⟨[], [], [], [], []⟩

/-! ## Definitions used to state the properties -/

/-- The name of an environment entry `NAME=VALUE`: what stands before the first `=`. -/
def entryName (v : GoString) : GoString := v.takeWhile (fun c => c != '=')

/-- The registration `viperBindEnv` makes for one entry of the environment, if any. -/
def bindingOf (T : CaseTables) (v : GoString) : Option Binding :=
  if v.count '=' = 1 ∧ strings.HasPrefix (entryName v) (envPrefix ++ "_".toList) = true then
    some (strings.ReplaceAll (strings.ToLower T
      (strings.TrimPrefix (entryName v) (envPrefix ++ "_".toList))) '_' '-', entryName v)
  else none

/-- The runes a flag name is made of: lowercase ASCII letters, digits and the dash. -/
def isFlagRune (c : Char) : Bool :=
  ('a'.toNat ≤ c.toNat && c.toNat ≤ 'z'.toNat) || ('0'.toNat ≤ c.toNat && c.toNat ≤ '9'.toNat)
    || c == '-'

/-- What `initConfig` prints for the outcome of `viper.ReadInConfig`: nothing
for success and for a not-found error, one line for any other error. -/
def printed (read : Option ReadError) : List (List GoString) :=
  match read with
  | none => []
  | some err => if err.isConfigFileNotFound then [] else [["Found error: ".toList, err.text]]

/-- The settings at the end of the search branch, for the config home `configHome`. -/
def searchSettings (os : OS) (configFormatYAML profile configHome : GoString) (v : Viper) :
    Viper :=
  { configFile := v.configFile
    configPaths := v.configPaths ++ [os.Join configHome pathTemplate, pathConfigFile]
    configType := configFormatYAML
    configName :=
      if profile ≠ [] then profile
      else if os.Getenv envTemplateProfile ≠ [] then os.Getenv envTemplateProfile
      else defaultProfile
    envPrefix := v.envPrefix }

/-! ## Lemmas on the string functions -/

theorem Split_ne_nil (s : GoString) (sep : Char) : strings.Split s sep ≠ [] := by
  induction s with
  | nil => simp [strings.Split]
  | cons c s ih =>
    unfold strings.Split
    split
    · simp
    · split <;> simp

theorem Split_length (s : GoString) (sep : Char) :
    (strings.Split s sep).length = s.count sep + 1 := by
  induction s with
  | nil => simp [strings.Split]
  | cons c s ih =>
    unfold strings.Split
    by_cases h : c = sep
    · subst h
      simp [ih]
    · rw [if_neg h]
      have hc : (c :: s).count sep = s.count sep := by
        rw [List.count_cons]
        simp [h]
      rw [hc, ← ih]
      cases hs : strings.Split s sep with
      | nil => exact absurd hs (Split_ne_nil s sep)
      | cons p ps => simp

theorem Split_name_value (name value : GoString) (sep : Char)
    (hn : sep ∉ name) (hv : sep ∉ value) :
    strings.Split (name ++ sep :: value) sep = [name, value] := by
  induction name with
  | nil =>
    have hv0 : strings.Split value sep = [value] := by
      induction value with
      | nil => simp [strings.Split]
      | cons c s ih =>
        have hc : c ≠ sep := fun h => hv (by simp [h])
        have hs : sep ∉ s := fun h => hv (by simp [h])
        unfold strings.Split
        simp [hc, ih hs]
    simp [strings.Split, hv0]
  | cons c s ih =>
    have hc : c ≠ sep := fun h => hn (by simp [h])
    have hs : sep ∉ s := fun h => hn (by simp [h])
    simp only [List.cons_append]
    unfold strings.Split
    simp [hc, ih hs]

theorem count_eq_one_split (v : GoString) (sep : Char) (h : v.count sep = 1) :
    ∃ name value, v = name ++ sep :: value ∧ sep ∉ name ∧ sep ∉ value := by
  induction v with
  | nil => simp at h
  | cons c s ih =>
    by_cases hc : c = sep
    · subst hc
      refine ⟨[], s, rfl, by simp, ?_⟩
      rw [List.count_cons_self] at h
      exact List.count_eq_zero.mp (by omega)
    · have hcount : (c :: s).count sep = s.count sep := by
        rw [List.count_cons]
        simp [hc]
      rw [hcount] at h
      obtain ⟨name, value, hs, hn, hv⟩ := ih h
      refine ⟨c :: name, value, by simp [hs], ?_, hv⟩
      simp only [List.mem_cons, not_or]
      exact ⟨fun e => hc e.symm, hn⟩

theorem count_name_value (name value : GoString) (sep : Char)
    (hn : sep ∉ name) (hv : sep ∉ value) : (name ++ sep :: value).count sep = 1 := by
  rw [List.count_append, List.count_cons_self, List.count_eq_zero.mpr hn,
    List.count_eq_zero.mpr hv]

theorem entryName_name_value (name value : GoString) (hn : '=' ∉ name) :
    entryName (name ++ '=' :: value) = name := by
  unfold entryName
  induction name with
  | nil => simp
  | cons c s ih =>
    have hc : c ≠ '=' := fun h => hn (by simp [h])
    have hs : '=' ∉ s := fun h => hn (by simp [h])
    simp [List.takeWhile_cons, hc, ih hs]

theorem HasPrefix_iff (s pre : GoString) :
    strings.HasPrefix s pre = true ↔ ∃ t, s = pre ++ t := by
  unfold strings.HasPrefix
  rw [List.isPrefixOf_iff_prefix]
  constructor
  · rintro ⟨t, ht⟩
    exact ⟨t, ht.symm⟩
  · rintro ⟨t, ht⟩
    exact ⟨t, ht.symm⟩

theorem TrimPrefix_append (pre t : GoString) : strings.TrimPrefix (pre ++ t) pre = t := by
  unfold strings.TrimPrefix
  rw [if_pos ((HasPrefix_iff _ _).mpr ⟨t, rfl⟩)]
  simp

/-- What `envToFlag` returns on an entry `TIBCTL_<X>=<V>` with no `=` in `X` and `V`. -/
theorem envToFlag_entry (T : CaseTables) (x value : GoString)
    (hx : '=' ∉ x) (hv : '=' ∉ value) :
    envToFlag T ((envPrefix ++ "_".toList) ++ (x ++ '=' :: value)) =
      .ok (strings.ReplaceAll (strings.ToLower T x) '_' '-', none) := by
  unfold envToFlag
  simp only [TrimPrefix_append, Split_name_value x value '=' hx hv]
  rfl

theorem viperBindEnvLoop_cons (T : CaseTables) (v : GoString) (rest : List GoString)
    (bound : List Binding) :
    viperBindEnvLoop T (v :: rest) bound =
      viperBindEnvLoop T rest (bound ++ (bindingOf T v).toList) := by
  by_cases hcount : v.count '=' = 1
  · obtain ⟨name, value, hv, hn, hval⟩ := count_eq_one_split v '=' hcount
    subst hv
    have hname := entryName_name_value name value hn
    by_cases hp : strings.HasPrefix name (envPrefix ++ "_".toList) = true
    · obtain ⟨x, hx⟩ := (HasPrefix_iff _ _).mp hp
      subst hx
      have hx : '=' ∉ x := fun h => hn (by simp [h])
      have hflag := envToFlag_entry T x value hx hval
      rw [← List.append_assoc] at hflag
      have hb : bindingOf T ((envPrefix ++ "_".toList ++ x) ++ '=' :: value) =
          some (strings.ReplaceAll (strings.ToLower T x) '_' '-',
            envPrefix ++ "_".toList ++ x) := by
        unfold bindingOf
        rw [hname, if_pos ⟨hcount, hp⟩, TrimPrefix_append]
      have hp2 : strings.HasPrefix (envPrefix ++ '_' :: x) (envPrefix ++ ['_']) = true := by
        simpa using hp
      rw [hb, viperBindEnvLoop]
      simp only [Split_name_value _ value '=' hn hval, hflag]
      simp [index, hp2, bind, Except.bind]
    · have hb : bindingOf T (name ++ '=' :: value) = none := by
        unfold bindingOf
        rw [hname, if_neg (fun h => hp h.2)]
      have hp2 : strings.HasPrefix name (envPrefix ++ ['_']) = false := by
        simpa using hp
      rw [hb, viperBindEnvLoop]
      simp only [Split_name_value _ value '=' hn hval]
      simp [index, hp2, bind, Except.bind]
  · have hb : bindingOf T v = none := by
      unfold bindingOf
      rw [if_neg (fun h => hcount h.1)]
    have hlen : (strings.Split v '=').length ≠ 2 := by
      rw [Split_length]
      omega
    rw [hb, viperBindEnvLoop]
    simp [hlen]

theorem viperBindEnvLoop_eq (T : CaseTables) (environ : List GoString) (bound : List Binding) :
    viperBindEnvLoop T environ bound = .ok (bound ++ environ.filterMap (bindingOf T)) := by
  induction environ generalizing bound with
  | nil => simp [viperBindEnvLoop]
  | cons v rest ih =>
    rw [viperBindEnvLoop_cons, ih]
    cases h : bindingOf T v <;> simp [List.filterMap_cons, h]

/-- The function `viperBindEnv` never panics, and registers, in the order of the
environment, one binding per entry with exactly one `=` whose name has the prefix. -/
theorem viperBindEnv_eq (T : CaseTables) (environ : List GoString) :
    viperBindEnv T environ = .ok (environ.filterMap (bindingOf T)) := by
  unfold viperBindEnv
  rw [viperBindEnvLoop_eq]
  simp

/-! ## Lemmas on the case mappings -/

theorem ascii_cases (P : Char → Prop) (h : ∀ n, n < 128 → P (Char.ofNat n))
    (c : Char) (hc : c.toNat < 128) : P c := by
  have := h c.toNat hc
  rwa [Char.ofNat_toNat] at this

theorem ToUpper_ascii (T : CaseTables) (c : Char) (hc : c.toNat < 128) :
    unicode.ToUpper T c = unicode.ToUpper asciiCase c := by
  have h : c.toNat ≤ unicode.MaxASCII := by
    unfold unicode.MaxASCII
    omega
  simp [unicode.ToUpper, h]

theorem ToLower_ascii (T : CaseTables) (c : Char) (hc : c.toNat < 128) :
    unicode.ToLower T c = unicode.ToLower asciiCase c := by
  have h : c.toNat ≤ unicode.MaxASCII := by
    unfold unicode.MaxASCII
    omega
  simp [unicode.ToLower, h]

/-- One rune through `envToFlag` and back through `flagToEnv`. -/
theorem rune_roundtrip (T : CaseTables) (r : Char) (hd : r ≠ '-')
    (hcase : unicode.ToUpper T (unicode.ToLower T r) = r) :
    unicode.ToUpper T
      ((fun c => if c = '-' then '_' else c)
        ((fun c => if c = '_' then '-' else c) (unicode.ToLower T r))) = r := by
  have hus : unicode.ToUpper T '_' = '_' := rfl
  have hds : unicode.ToUpper T '-' = '-' := rfl
  by_cases h1 : unicode.ToLower T r = '_'
  · rw [h1] at hcase
    simp only [h1, if_true]
    rw [← hcase, hus]
  · by_cases h2 : unicode.ToLower T r = '-'
    · rw [h2, hds] at hcase
      exact absurd hcase.symm hd
    · simp only [h1, h2, if_false]
      exact hcase

/-- The round trip `flagToEnv (envToFlag ...)` on the part `X` of the name. -/
theorem flagToEnv_roundtrip (T : CaseTables) (X : GoString) (hd : '-' ∉ X)
    (hcase : strings.ToUpper T (strings.ToLower T X) = X) :
    flagToEnv T (strings.ReplaceAll (strings.ToLower T X) '_' '-') =
      envPrefix ++ "_".toList ++ X := by
  unfold flagToEnv
  simp only [List.append_cancel_left_eq]
  induction X with
  | nil => rfl
  | cons c s ih =>
    have hc : c ≠ '-' := fun h => hd (by simp [h])
    have hs : '-' ∉ s := fun h => hd (by simp [h])
    simp only [strings.ToUpper, strings.ToLower, List.map_cons, List.cons.injEq] at hcase
    have ih2 := ih hs (by simpa [strings.ToUpper, strings.ToLower] using hcase.2)
    have hr := rune_roundtrip T c hc hcase.1
    simp only [strings.ToUpper, strings.ToLower, strings.ReplaceAll, List.map_cons,
      List.map_map] at ih2 ⊢
    rw [ih2]
    simp only [List.cons.injEq, and_true]
    exact hr

theorem isFlagRune_ascii (c : Char) (h : isFlagRune c = true) : c.toNat < 128 := by
  unfold isFlagRune at h
  simp only [Bool.or_eq_true, Bool.and_eq_true, decide_eq_true_eq, beq_iff_eq] at h
  rcases h with (h | h) | h
  · have : 'z'.toNat = 122 := rfl
    omega
  · have : '9'.toNat = 57 := rfl
    omega
  · subst h
    decide

theorem flagRune_table : ∀ n, n < 128 → isFlagRune (Char.ofNat n) = true →
    (if Char.ofNat n = '-' then '_' else Char.ofNat n).toNat < 128 ∧
    (unicode.ToUpper asciiCase (if Char.ofNat n = '-' then '_' else Char.ofNat n)).toNat < 128 ∧
    unicode.ToUpper asciiCase (if Char.ofNat n = '-' then '_' else Char.ofNat n) ≠ '=' ∧
    (fun c => if c = '_' then '-' else c) (unicode.ToLower asciiCase
      (unicode.ToUpper asciiCase (if Char.ofNat n = '-' then '_' else Char.ofNat n))) =
      Char.ofNat n := by
  decide

/-- One rune of a flag name through `flagToEnv` and back through `envToFlag`. -/
theorem flagRune_roundtrip (T : CaseTables) (c : Char) (h : isFlagRune c = true) :
    unicode.ToUpper T (if c = '-' then '_' else c) ≠ '=' ∧
    (fun c => if c = '_' then '-' else c)
      (unicode.ToLower T (unicode.ToUpper T (if c = '-' then '_' else c))) = c := by
  have hc := isFlagRune_ascii c h
  have key := ascii_cases (fun c => isFlagRune c = true →
    (if c = '-' then '_' else c).toNat < 128 ∧
    (unicode.ToUpper asciiCase (if c = '-' then '_' else c)).toNat < 128 ∧
    unicode.ToUpper asciiCase (if c = '-' then '_' else c) ≠ '=' ∧
    (fun c => if c = '_' then '-' else c) (unicode.ToLower asciiCase
      (unicode.ToUpper asciiCase (if c = '-' then '_' else c))) = c) flagRune_table c hc h
  obtain ⟨h1, h2, h3, h4⟩ := key
  rw [ToUpper_ascii T _ h1, ToLower_ascii T _ h2]
  exact ⟨h3, h4⟩

/-- The round trip `envToFlag (flagToEnv ...)` on a flag name. -/
theorem flagName_roundtrip (T : CaseTables) (f : GoString)
    (hf : ∀ c ∈ f, isFlagRune c = true) :
    '=' ∉ strings.ToUpper T (strings.ReplaceAll f '-' '_') ∧
    strings.ReplaceAll (strings.ToLower T (strings.ToUpper T (strings.ReplaceAll f '-' '_')))
      '_' '-' = f := by
  induction f with
  | nil => simp [strings.ToUpper, strings.ToLower, strings.ReplaceAll]
  | cons c s ih =>
    have hr := flagRune_roundtrip T c (hf c (by simp))
    have ih2 := ih (fun d hd => hf d (by simp [hd]))
    simp only [strings.ToUpper, strings.ToLower, strings.ReplaceAll, List.map_cons,
      List.map_map, List.mem_cons, not_or, List.cons.injEq] at ih2 ⊢
    exact ⟨⟨fun e => hr.1 e.symm, ih2.1⟩, hr.2, ih2.2⟩

/-! ## The claims on the environment binder -/

/-- C1, as stated, fails: for `X = "profile"` (no underscore, no `=`) the entry
`TIBCTL_profile=x` gives the flag `profile`, and `flagToEnv` of it is
`TIBCTL_PROFILE`, not the name `TIBCTL_profile`; for `X = "A-B"` the entry
`TIBCTL_A-B=x` gives the flag `a-b`, and `flagToEnv` of it is `TIBCTL_A_B`. -/
theorem C1_counterexample :
    ('_' ∉ "profile".toList ∧ '=' ∉ "profile".toList ∧ '=' ∉ "x".toList ∧
      envToFlag asciiCase "TIBCTL_profile=x".toList = .ok ("profile".toList, none) ∧
      flagToEnv asciiCase "profile".toList = "TIBCTL_PROFILE".toList ∧
      flagToEnv asciiCase "profile".toList ≠ "TIBCTL_profile".toList) ∧
    ('_' ∉ "A-B".toList ∧ '=' ∉ "A-B".toList ∧
      envToFlag asciiCase "TIBCTL_A-B=x".toList = .ok ("a-b".toList, none) ∧
      flagToEnv asciiCase "a-b".toList = "TIBCTL_A_B".toList ∧
      flagToEnv asciiCase "a-b".toList ≠ "TIBCTL_A-B".toList) := by
  decide

/-- C1, amended: for every name `N = "TIBCTL_" ++ X` where `X` contains no
underscore, no `=`, no dash and no rune that lower-casing followed by
upper-casing changes (such as a lowercase letter), and every value `V` without
`=`, `envToFlag (N ++ "=" ++ V)` succeeds with no error and returns
`lowercase(X)` with underscores replaced by dashes, and `flagToEnv` of that
flag name is `N`. -/
theorem C1_envToFlag_flagToEnv_roundtrip (T : CaseTables) (X V : GoString)
    (_hu : '_' ∉ X) (he : '=' ∉ X) (hd : '-' ∉ X) (hv : '=' ∉ V)
    (hcase : strings.ToUpper T (strings.ToLower T X) = X) :
    envToFlag T (envPrefix ++ "_".toList ++ X ++ "=".toList ++ V) =
      .ok (strings.ReplaceAll (strings.ToLower T X) '_' '-', none) ∧
    flagToEnv T (strings.ReplaceAll (strings.ToLower T X) '_' '-') =
      envPrefix ++ "_".toList ++ X := by
  refine ⟨?_, flagToEnv_roundtrip T X hd hcase⟩
  have h := envToFlag_entry T X V he hv
  simpa [List.append_assoc] using h

/-- C1, amended, at `TIBCTL_PROFILE=dev`: the flag is `profile` and `flagToEnv`
gives `TIBCTL_PROFILE` back. -/
theorem C1_envToFlag_flagToEnv_roundtrip_witness :
    envToFlag asciiCase "TIBCTL_PROFILE=dev".toList = .ok ("profile".toList, none) ∧
    flagToEnv asciiCase "profile".toList = "TIBCTL_PROFILE".toList :=
  C1_envToFlag_flagToEnv_roundtrip asciiCase "PROFILE".toList "dev".toList
    (by decide) (by decide) (by decide) (by decide) (by decide)

/-- C2: for every environment list and every entry `NAME=VALUE` of it with
exactly one `=` whose `NAME` starts with `TIBCTL_`, `viperBindEnv` completes and
registers the binding `(k, NAME)`, where `k` is `NAME` with the leading
`TIBCTL_` stripped, lower-cased, every underscore replaced by a dash; `NAME` is
passed unchanged and `k` is a function of `NAME` alone. -/
theorem C2_viperBindEnv_registers (T : CaseTables) (environ : List GoString)
    (name value : GoString) (hmem : name ++ "=".toList ++ value ∈ environ)
    (hn : '=' ∉ name) (hv : '=' ∉ value)
    (hp : strings.HasPrefix name (envPrefix ++ "_".toList) = true) :
    ∃ bound, viperBindEnv T environ = .ok bound ∧
      (strings.ReplaceAll (strings.ToLower T
        (strings.TrimPrefix name (envPrefix ++ "_".toList))) '_' '-', name) ∈ bound := by
  refine ⟨_, viperBindEnv_eq T environ, ?_⟩
  rw [List.mem_filterMap]
  refine ⟨_, hmem, ?_⟩
  have hname : entryName (name ++ "=".toList ++ value) = name := by
    have := entryName_name_value name value hn
    simpa [List.append_assoc] using this
  have hcount : (name ++ "=".toList ++ value).count '=' = 1 := by
    have := count_name_value name value '=' hn hv
    simpa [List.append_assoc] using this
  unfold bindingOf
  rw [hname, if_pos ⟨hcount, hp⟩]

/-- C2 at the environment `HOME=/root`, `TIBCTL_BASE_URL=http://x`: the binding
`(base-url, TIBCTL_BASE_URL)` is registered. -/
theorem C2_viperBindEnv_registers_witness :
    ∃ bound, viperBindEnv asciiCase ["HOME=/root".toList, "TIBCTL_BASE_URL=http://x".toList] =
        .ok bound ∧
      ("base-url".toList, "TIBCTL_BASE_URL".toList) ∈ bound :=
  C2_viperBindEnv_registers asciiCase ["HOME=/root".toList, "TIBCTL_BASE_URL=http://x".toList]
    "TIBCTL_BASE_URL".toList "http://x".toList (by decide) (by decide) (by decide) (by decide)

/-- C3, as stated, fails: the flag `secret` has the variable `TIBCTL_SECRET`, and
with the value `a=b` the entry `TIBCTL_SECRET=a=b` splits into three parts, so
`viperBindEnv` registers nothing. -/
theorem C3_counterexample :
    (∀ c ∈ "secret".toList, isFlagRune c = true) ∧
    flagToEnv asciiCase "secret".toList = "TIBCTL_SECRET".toList ∧
    strings.Split "TIBCTL_SECRET=a=b".toList '=' =
      ["TIBCTL_SECRET".toList, "a".toList, "b".toList] ∧
    viperBindEnv asciiCase [flagToEnv asciiCase "secret".toList ++ "=".toList ++ "a=b".toList] =
      .ok [] := by
  decide

/-- C3, amended: for every flag name `f` made only of lowercase ASCII letters,
digits and dashes, and every value `V` that contains no `=`, an environment
containing the entry `flagToEnv(f) ++ "=" ++ V` makes `viperBindEnv` register
the binding of the flag `f` to the variable `flagToEnv(f)`. -/
theorem C3_flag_variable_honored (T : CaseTables) (environ : List GoString)
    (f V : GoString) (hf : ∀ c ∈ f, isFlagRune c = true) (hv : '=' ∉ V)
    (hmem : flagToEnv T f ++ "=".toList ++ V ∈ environ) :
    ∃ bound, viperBindEnv T environ = .ok bound ∧ (f, flagToEnv T f) ∈ bound := by
  refine ⟨_, viperBindEnv_eq T environ, ?_⟩
  rw [List.mem_filterMap]
  refine ⟨_, hmem, ?_⟩
  obtain ⟨hx, hback⟩ := flagName_roundtrip T f hf
  have hn : '=' ∉ flagToEnv T f := by
    unfold flagToEnv
    simp only [List.mem_append, not_or]
    exact ⟨⟨by decide, by decide⟩, hx⟩
  have hp : strings.HasPrefix (flagToEnv T f) (envPrefix ++ "_".toList) = true :=
    (HasPrefix_iff _ _).mpr ⟨_, rfl⟩
  have hname : entryName (flagToEnv T f ++ "=".toList ++ V) = flagToEnv T f := by
    have := entryName_name_value (flagToEnv T f) V hn
    simpa [List.append_assoc] using this
  have hcount : (flagToEnv T f ++ "=".toList ++ V).count '=' = 1 := by
    have := count_name_value (flagToEnv T f) V '=' hn hv
    simpa [List.append_assoc] using this
  have htrim : strings.TrimPrefix (flagToEnv T f) (envPrefix ++ "_".toList) =
      strings.ToUpper T (strings.ReplaceAll f '-' '_') := TrimPrefix_append _ _
  unfold bindingOf
  rw [hname, if_pos ⟨hcount, hp⟩, htrim, hback]

/-- C3, amended, at the flag `config-file` and the entry
`TIBCTL_CONFIG_FILE=/tmp/c.yaml`. -/
theorem C3_flag_variable_honored_witness :
    ∃ bound, viperBindEnv asciiCase ["TIBCTL_CONFIG_FILE=/tmp/c.yaml".toList, "PATH=/bin".toList] =
        .ok bound ∧
      ("config-file".toList, "TIBCTL_CONFIG_FILE".toList) ∈ bound :=
  C3_flag_variable_honored asciiCase
    ["TIBCTL_CONFIG_FILE=/tmp/c.yaml".toList, "PATH=/bin".toList]
    "config-file".toList "/tmp/c.yaml".toList (by decide) (by decide) (by decide)

/-- C4: for every environment list `viperBindEnv` completes, every binding it
registers has as its variable the name of an entry of the list and that name
starts with `TIBCTL_`; an environment in which no name starts with `TIBCTL_`
yields no binding; and the entries whose name does not start with `TIBCTL_`
contribute nothing: without them the same bindings are registered. -/
theorem C4_only_prefixed_names_bound (T : CaseTables) (environ : List GoString) :
    ∃ bound, viperBindEnv T environ = .ok bound ∧
      (∀ b ∈ bound, strings.HasPrefix b.2 (envPrefix ++ "_".toList) = true ∧
        ∃ e ∈ environ, entryName e = b.2) ∧
      ((∀ e ∈ environ, strings.HasPrefix (entryName e) (envPrefix ++ "_".toList) = false) →
        bound = []) ∧
      viperBindEnv T
        (environ.filter (fun e => strings.HasPrefix (entryName e) (envPrefix ++ "_".toList))) =
        .ok bound := by
  refine ⟨_, viperBindEnv_eq T environ, ?_, ?_, ?_⟩
  · intro b hb
    rw [List.mem_filterMap] at hb
    obtain ⟨e, he, hbe⟩ := hb
    unfold bindingOf at hbe
    split at hbe
    · rename_i hcond
      simp only [Option.some.injEq] at hbe
      subst hbe
      exact ⟨hcond.2, e, he, rfl⟩
    · simp at hbe
  · intro hall
    rw [List.filterMap_eq_nil_iff]
    intro e he
    unfold bindingOf
    rw [if_neg]
    intro hcond
    rw [hall e he] at hcond
    simp at hcond
  · rw [viperBindEnv_eq]
    congr 1
    induction environ with
    | nil => rfl
    | cons e rest ih =>
      by_cases hp : strings.HasPrefix (entryName e) (envPrefix ++ "_".toList) = true
      · rw [List.filter_cons, if_pos hp, List.filterMap_cons, List.filterMap_cons, ih]
      · have hb : bindingOf T e = none := by
          unfold bindingOf
          rw [if_neg (fun h => hp h.2)]
        rw [List.filter_cons, if_neg hp, List.filterMap_cons, hb, ih]

/-- C4 at the environment `HOME=/root`, `TIBCTL_PROFILE=dev`, `XTIBCTL_A=1`. -/
theorem C4_only_prefixed_names_bound_witness :
    ∃ bound, viperBindEnv asciiCase
        ["HOME=/root".toList, "TIBCTL_PROFILE=dev".toList, "XTIBCTL_A=1".toList] = .ok bound ∧
      (∀ b ∈ bound, strings.HasPrefix b.2 (envPrefix ++ "_".toList) = true ∧
        ∃ e ∈ ["HOME=/root".toList, "TIBCTL_PROFILE=dev".toList, "XTIBCTL_A=1".toList],
          entryName e = b.2) ∧
      ((∀ e ∈ ["HOME=/root".toList, "TIBCTL_PROFILE=dev".toList, "XTIBCTL_A=1".toList],
          strings.HasPrefix (entryName e) (envPrefix ++ "_".toList) = false) → bound = []) ∧
      viperBindEnv asciiCase
        (["HOME=/root".toList, "TIBCTL_PROFILE=dev".toList, "XTIBCTL_A=1".toList].filter
          (fun e => strings.HasPrefix (entryName e) (envPrefix ++ "_".toList))) = .ok bound :=
  C4_only_prefixed_names_bound asciiCase
    ["HOME=/root".toList, "TIBCTL_PROFILE=dev".toList, "XTIBCTL_A=1".toList]

/-- C5: for every environment list and every entry of it containing zero `=` or
more than one `=` (whatever its name), `viperBindEnv` completes without a panic,
registers nothing for that entry, and processes the entries before and after it
as it does on their own. -/
theorem C5_malformed_entry_skipped (T : CaseTables) (before after : List GoString)
    (e : GoString) (h : e.count '=' = 0 ∨ 1 < e.count '=') :
    viperBindEnv T [e] = .ok [] ∧
    ∃ b1 b2, viperBindEnv T before = .ok b1 ∧ viperBindEnv T after = .ok b2 ∧
      viperBindEnv T (before ++ e :: after) = .ok (b1 ++ b2) := by
  have hb : bindingOf T e = none := by
    unfold bindingOf
    rw [if_neg]
    intro hcond
    omega
  refine ⟨?_, _, _, viperBindEnv_eq T before, viperBindEnv_eq T after, ?_⟩
  · rw [viperBindEnv_eq]
    simp [hb]
  · rw [viperBindEnv_eq, List.filterMap_append, List.filterMap_cons, hb]

/-- C5 at the entries `TIBCTL_SECRET` (no `=`) between two well-formed ones. -/
theorem C5_malformed_entry_skipped_witness :
    viperBindEnv asciiCase ["TIBCTL_SECRET".toList] = .ok [] ∧
    ∃ b1 b2, viperBindEnv asciiCase ["TIBCTL_PROFILE=dev".toList] = .ok b1 ∧
      viperBindEnv asciiCase ["TIBCTL_BASE_URL=u".toList] = .ok b2 ∧
      viperBindEnv asciiCase (["TIBCTL_PROFILE=dev".toList] ++
        "TIBCTL_SECRET".toList :: ["TIBCTL_BASE_URL=u".toList]) = .ok (b1 ++ b2) :=
  C5_malformed_entry_skipped asciiCase ["TIBCTL_PROFILE=dev".toList]
    ["TIBCTL_BASE_URL=u".toList] "TIBCTL_SECRET".toList (by decide)

/-! ## Lemmas on `initConfig` -/

theorem read_phase (r : Option ReadError) (v : Viper) :
    (match r with
      | some err =>
        if (!err.isConfigFileNotFound) = true then
          (Except.ok (v, [["Found error: ".toList, err.text]]) :
            Except Exit (Viper × List (List GoString)))
        else Except.ok (v, [])
      | none => Except.ok (v, [])) = .ok (v, printed r) := by
  cases r with
  | none => rfl
  | some err =>
    obtain ⟨nf, text⟩ := err
    cases nf <;> rfl

theorem initConfig_flag (os : OS) (configFormatYAML configFile profile : GoString) (v : Viper)
    (h : configFile ≠ []) :
    initConfig os configFormatYAML configFile profile v =
      .ok (v.SetConfigFile configFile, printed (os.ReadInConfig (v.SetConfigFile configFile))) := by
  unfold initConfig
  simp only [h, ne_eq, not_false_eq_true, if_true, bind, Except.bind, pure, Except.pure]
  exact read_phase _ _

theorem initConfig_env (os : OS) (configFormatYAML profile : GoString) (v : Viper)
    (h : os.Getenv envTemplateConfigFile ≠ []) :
    initConfig os configFormatYAML [] profile v =
      .ok (v.SetConfigFile (os.Getenv envTemplateConfigFile),
        printed (os.ReadInConfig (v.SetConfigFile (os.Getenv envTemplateConfigFile)))) := by
  unfold initConfig
  simp only [h, ne_eq, not_true_eq_false, not_false_eq_true, if_true, if_false, bind,
    Except.bind, pure, Except.pure]
  exact read_phase _ _

theorem initConfig_search_xdg (os : OS) (configFormatYAML profile : GoString) (v : Viper)
    (henv : os.Getenv envTemplateConfigFile = []) (hx : os.Getenv envXDGConfigHome ≠ []) :
    initConfig os configFormatYAML [] profile v =
      .ok (searchSettings os configFormatYAML profile (os.Getenv envXDGConfigHome) v,
        printed (os.ReadInConfig
          (searchSettings os configFormatYAML profile (os.Getenv envXDGConfigHome) v))) := by
  unfold initConfig searchSettings
  by_cases hp : profile = [] <;> by_cases he : os.Getenv envTemplateProfile = [] <;>
    simp only [henv, hx, hp, he, Viper.SetConfigName, Viper.SetConfigType,
      Viper.AddConfigPath, ne_eq, not_true_eq_false, not_false_eq_true, if_true, if_false,
      bind, Except.bind, pure, Except.pure, List.append_assoc, List.singleton_append] <;>
    exact read_phase _ _

theorem initConfig_search_lookup (os : OS) (configFormatYAML profile : GoString) (v : Viper)
    (henv : os.Getenv envTemplateConfigFile = []) (hx : os.Getenv envXDGConfigHome = [])
    (hl : os.UserConfigDir.2 = none) :
    initConfig os configFormatYAML [] profile v =
      .ok (searchSettings os configFormatYAML profile os.UserConfigDir.1 v,
        printed (os.ReadInConfig
          (searchSettings os configFormatYAML profile os.UserConfigDir.1 v))) := by
  unfold initConfig searchSettings
  by_cases hp : profile = [] <;> by_cases he : os.Getenv envTemplateProfile = [] <;>
    simp only [henv, hx, hl, hp, he, cobra.CheckErr, Viper.SetConfigName,
      Viper.SetConfigType, Viper.AddConfigPath, ne_eq, not_true_eq_false, not_false_eq_true,
      if_true, if_false, bind, Except.bind, pure, Except.pure, List.append_assoc,
      List.singleton_append] <;>
    exact read_phase _ _

theorem initConfig_search_exit (os : OS) (configFormatYAML profile : GoString) (v : Viper)
    (henv : os.Getenv envTemplateConfigFile = []) (hx : os.Getenv envXDGConfigHome = [])
    (e : GoError) (hl : os.UserConfigDir.2 = some e) :
    initConfig os configFormatYAML [] profile v = .error ⟨1, ["Error:".toList, e.msg]⟩ := by
  unfold initConfig
  simp only [henv, hx, hl, cobra.CheckErr, ne_eq, not_true_eq_false, not_false_eq_true,
    if_true, if_false, bind, Except.bind, pure, Except.pure]

/-! ## The claims on the configuration resolver -/

/-- C6: when the config-file flag value is non-empty, `initConfig` returns
with exactly that value handed to `viper.SetConfigFile`, whatever the
environment and the profile flag hold; otherwise, when `TIBCTL_CONFIG_FILE` is
non-empty, with exactly that variable's value. In both cases no search
directory is added and no config type or base name is set. -/
theorem C6_explicit_config_file (os : OS) (configFormatYAML configFile profile : GoString)
    (v : Viper) (h : configFile ≠ [] ∨ os.Getenv envTemplateConfigFile ≠ []) :
    ∃ v' out, initConfig os configFormatYAML configFile profile v = .ok (v', out) ∧
      v'.configFile =
        (if configFile ≠ [] then configFile else os.Getenv envTemplateConfigFile) ∧
      v'.configPaths = v.configPaths ∧ v'.configType = v.configType ∧
      v'.configName = v.configName := by
  by_cases hc : configFile = []
  · subst hc
    have he : os.Getenv envTemplateConfigFile ≠ [] := by
      rcases h with h | h
      · exact absurd rfl h
      · exact h
    exact ⟨_, _, initConfig_env os configFormatYAML profile v he, by simp [Viper.SetConfigFile],
      rfl, rfl, rfl⟩
  · exact ⟨_, _, initConfig_flag os configFormatYAML configFile profile v hc,
      by simp [Viper.SetConfigFile, hc], rfl, rfl, rfl⟩

/-- C6 with the flag `--config-file=/tmp/a.yaml` while `TIBCTL_CONFIG_FILE`,
`XDG_CONFIG_HOME` and `TIBCTL_PROFILE` are set and the profile flag is `dev`. -/
theorem C6_explicit_config_file_witness :
    ∃ v' out, initConfig
        (osOf [("TIBCTL_CONFIG_FILE".toList, "/tmp/b.yaml".toList),
          ("XDG_CONFIG_HOME".toList, "/x".toList), ("TIBCTL_PROFILE".toList, "envp".toList)]
          ([], none) none)
        "yaml".toList "/tmp/a.yaml".toList "dev".toList Viper.fresh = .ok (v', out) ∧
      v'.configFile = "/tmp/a.yaml".toList ∧
      v'.configPaths = [] ∧ v'.configType = [] ∧ v'.configName = [] :=
  C6_explicit_config_file
    (osOf [("TIBCTL_CONFIG_FILE".toList, "/tmp/b.yaml".toList),
      ("XDG_CONFIG_HOME".toList, "/x".toList), ("TIBCTL_PROFILE".toList, "envp".toList)]
      ([], none) none)
    "yaml".toList "/tmp/a.yaml".toList "dev".toList Viper.fresh (by decide)

/-- C7, as stated, fails: in the search branch with `XDG_CONFIG_HOME` unset,
`os.UserConfigDir` returning an error, `TIBCTL_PROFILE=envp` and
`--profile=flagp`, `cobra.CheckErr` ends the process with exit status 1 before
any `viper.SetConfigName`, so `initConfig` does not end with the base name
`flagp`. -/
theorem C7_counterexample :
    initConfig
      (osOf [("TIBCTL_PROFILE".toList, "envp".toList)]
        ([], some ⟨"neither $XDG_CONFIG_HOME nor $HOME are defined".toList⟩) none)
      "yaml".toList [] "flagp".toList Viper.fresh =
      .error ⟨1, ["Error:".toList,
        "neither $XDG_CONFIG_HOME nor $HOME are defined".toList]⟩ ∧
    ¬ ∃ v' out, initConfig
        (osOf [("TIBCTL_PROFILE".toList, "envp".toList)]
          ([], some ⟨"neither $XDG_CONFIG_HOME nor $HOME are defined".toList⟩) none)
        "yaml".toList [] "flagp".toList Viper.fresh = .ok (v', out) ∧
      v'.configName = "flagp".toList := by
  have hexit : initConfig
      (osOf [("TIBCTL_PROFILE".toList, "envp".toList)]
        ([], some ⟨"neither $XDG_CONFIG_HOME nor $HOME are defined".toList⟩) none)
      "yaml".toList [] "flagp".toList Viper.fresh =
      .error ⟨1, ["Error:".toList,
        "neither $XDG_CONFIG_HOME nor $HOME are defined".toList]⟩ := by
    decide
  refine ⟨hexit, ?_⟩
  rintro ⟨v', out, h, _⟩
  rw [hexit] at h
  cases h

/-- C7, amended: in the search branch (config-file flag empty,
`TIBCTL_CONFIG_FILE` empty), when `XDG_CONFIG_HOME` is non-empty or the
user-config-directory lookup succeeds, `initConfig` returns and a non-empty
profile flag value is the final base name, for every value of
`TIBCTL_PROFILE`. -/
theorem C7_profile_flag_is_base_name (os : OS)
    (configFormatYAML configFile profile : GoString) (v : Viper)
    (hcf : configFile = []) (henv : os.Getenv envTemplateConfigFile = [])
    (hdir : os.Getenv envXDGConfigHome ≠ [] ∨ os.UserConfigDir.2 = none)
    (hp : profile ≠ []) :
    ∃ v' out, initConfig os configFormatYAML configFile profile v = .ok (v', out) ∧
      v'.configName = profile := by
  subst hcf
  by_cases hx : os.Getenv envXDGConfigHome = []
  · have hl : os.UserConfigDir.2 = none := by
      rcases hdir with h | h
      · exact absurd hx h
      · exact h
    exact ⟨_, _, initConfig_search_lookup os configFormatYAML profile v henv hx hl,
      by simp [searchSettings, hp]⟩
  · exact ⟨_, _, initConfig_search_xdg os configFormatYAML profile v henv hx,
      by simp [searchSettings, hp]⟩

/-- C7, amended, with `TIBCTL_PROFILE=envp`, `--profile=flagp` and the
user-config directory `/home/u/.config`: the base name is `flagp`. -/
theorem C7_profile_flag_is_base_name_witness :
    ∃ v' out, initConfig
        (osOf [("TIBCTL_PROFILE".toList, "envp".toList)] ("/home/u/.config".toList, none) none)
        "yaml".toList [] "flagp".toList Viper.fresh = .ok (v', out) ∧
      v'.configName = "flagp".toList :=
  C7_profile_flag_is_base_name
    (osOf [("TIBCTL_PROFILE".toList, "envp".toList)] ("/home/u/.config".toList, none) none)
    "yaml".toList [] "flagp".toList Viper.fresh rfl (by decide) (by decide) (by decide)

/-- C8 fails on the code: with `TIBCTL_PROFILE=envp` and no `--profile` on the
command line, the variable `profile` holds the default `default` that
`withGlobalFlags` registered, it is not empty, and `initConfig` ends with the
base name `default`, not `envp`. -/
theorem C8_env_profile_overridden :
    flagValue (withGlobalFlags [] Viper.fresh).1 optProfile none = "default".toList ∧
    initConfig
      (osOf [("TIBCTL_PROFILE".toList, "envp".toList),
        ("XDG_CONFIG_HOME".toList, "/home/u/.config".toList)] ([], none) none)
      "yaml".toList [] (flagValue (withGlobalFlags [] Viper.fresh).1 optProfile none)
      (withGlobalFlags [] Viper.fresh).2 =
      .ok (⟨[], ["/home/u/.config/tibctl".toList, "/etc/tibctl".toList], "yaml".toList,
        "default".toList, "TIBCTL".toList⟩, []) := by
  decide

/-- C9, as stated, fails: in the search branch with `XDG_CONFIG_HOME` unset,
`os.UserConfigDir` returning an error and `--profile=staging`,
`cobra.CheckErr` ends the process with exit status 1 before any
`viper.AddConfigPath`, `viper.SetConfigType` or `viper.SetConfigName`: no
search directory is added, no config type and no base name is set. -/
theorem C9_counterexample :
    initConfig
      (osOf [] ([], some ⟨"neither $XDG_CONFIG_HOME nor $HOME are defined".toList⟩) none)
      "yaml".toList [] "staging".toList Viper.fresh =
      .error ⟨1, ["Error:".toList,
        "neither $XDG_CONFIG_HOME nor $HOME are defined".toList]⟩ ∧
    ¬ ∃ v' out, initConfig
        (osOf [] ([], some ⟨"neither $XDG_CONFIG_HOME nor $HOME are defined".toList⟩) none)
        "yaml".toList [] "staging".toList Viper.fresh = .ok (v', out) ∧
      v'.configType = "yaml".toList ∧ v'.configName = "staging".toList := by
  have hexit : initConfig
      (osOf [] ([], some ⟨"neither $XDG_CONFIG_HOME nor $HOME are defined".toList⟩) none)
      "yaml".toList [] "staging".toList Viper.fresh =
      .error ⟨1, ["Error:".toList,
        "neither $XDG_CONFIG_HOME nor $HOME are defined".toList]⟩ := by
    decide
  refine ⟨hexit, ?_⟩
  rintro ⟨v', out, h, _⟩
  rw [hexit] at h
  cases h

/-- C9, amended: in the search branch, when `XDG_CONFIG_HOME` is non-empty or
the user-config-directory lookup succeeds, with `H` the value of
`XDG_CONFIG_HOME` when that is non-empty and otherwise the directory
`os.UserConfigDir` returns, `initConfig` returns having added exactly two
search directories, `filepath.Join(H, "tibctl")` and then `/etc/tibctl`, and
set the config type to `configFormatYAML`, and with the profile flag `staging`
the base name is `staging`. -/
theorem C9_search_directories (os : OS) (configFormatYAML configFile profile H : GoString)
    (v : Viper) (hcf : configFile = []) (henv : os.Getenv envTemplateConfigFile = [])
    (hH : (os.Getenv envXDGConfigHome ≠ [] ∧ H = os.Getenv envXDGConfigHome) ∨
      (os.Getenv envXDGConfigHome = [] ∧ os.UserConfigDir = (H, none))) :
    ∃ v' out, initConfig os configFormatYAML configFile profile v = .ok (v', out) ∧
      v'.configPaths = v.configPaths ++ [os.Join H "tibctl".toList, "/etc/tibctl".toList] ∧
      v'.configType = configFormatYAML ∧
      (profile = "staging".toList → v'.configName = "staging".toList) := by
  subst hcf
  rcases hH with ⟨hx, hH⟩ | ⟨hx, hH⟩
  · subst hH
    refine ⟨_, _, initConfig_search_xdg os configFormatYAML profile v henv hx, rfl, rfl, ?_⟩
    intro hp
    subst hp
    rfl
  · have hl : os.UserConfigDir.2 = none := by rw [hH]
    have hd : os.UserConfigDir.1 = H := by rw [hH]
    refine ⟨_, _, initConfig_search_lookup os configFormatYAML profile v henv hx hl, ?_, rfl, ?_⟩
    · rw [← hd]
      rfl
    · intro hp
      subst hp
      rfl

/-- C9, amended, with `XDG_CONFIG_HOME` unset, the user-config directory
`/home/u/.config` and `--profile=staging`. -/
theorem C9_search_directories_witness :
    ∃ v' out, initConfig (osOf [] ("/home/u/.config".toList, none) none)
        "yaml".toList [] "staging".toList Viper.fresh = .ok (v', out) ∧
      v'.configPaths = [] ++ ["/home/u/.config/tibctl".toList, "/etc/tibctl".toList] ∧
      v'.configType = "yaml".toList ∧
      ("staging".toList = "staging".toList → v'.configName = "staging".toList) :=
  C9_search_directories (osOf [] ("/home/u/.config".toList, none) none)
    "yaml".toList [] "staging".toList "/home/u/.config".toList Viper.fresh rfl (by decide)
    (Or.inr ⟨by decide, rfl⟩)

/-- C10, as stated, fails: with no config-file flag, `TIBCTL_CONFIG_FILE` and
`XDG_CONFIG_HOME` unset and `os.UserConfigDir` returning an error,
`cobra.CheckErr` ends the process with exit status 1. -/
theorem C10_counterexample :
    initConfig
      (osOf [] ([], some ⟨"neither $XDG_CONFIG_HOME nor $HOME are defined".toList⟩) none)
      "yaml".toList [] "default".toList Viper.fresh =
      .error ⟨1, ["Error:".toList,
        "neither $XDG_CONFIG_HOME nor $HOME are defined".toList]⟩ := by
  decide

/-- C10, amended: `initConfig` returns normally for every outcome of the
config read (success, not-found, any other error; only the last prints a line)
whenever the config-file flag, `TIBCTL_CONFIG_FILE` or `XDG_CONFIG_HOME` is
non-empty or the user-config-directory lookup succeeds; when none of these
holds, `cobra.CheckErr` ends the process with exit status 1. -/
theorem C10_initConfig_returns_or_exits (os : OS)
    (configFormatYAML configFile profile : GoString) (v : Viper) :
    ((configFile ≠ [] ∨ os.Getenv envTemplateConfigFile ≠ [] ∨
        os.Getenv envXDGConfigHome ≠ [] ∨ os.UserConfigDir.2 = none) →
      ∃ v', initConfig os configFormatYAML configFile profile v =
        .ok (v', printed (os.ReadInConfig v'))) ∧
    (¬ (configFile ≠ [] ∨ os.Getenv envTemplateConfigFile ≠ [] ∨
        os.Getenv envXDGConfigHome ≠ [] ∨ os.UserConfigDir.2 = none) →
      ∃ e, initConfig os configFormatYAML configFile profile v = .error e ∧ e.code = 1) := by
  constructor
  · intro h
    by_cases hc : configFile = []
    · subst hc
      by_cases he : os.Getenv envTemplateConfigFile = []
      · by_cases hx : os.Getenv envXDGConfigHome = []
        · have hl : os.UserConfigDir.2 = none := by
            rcases h with h | h | h | h
            · exact absurd rfl h
            · exact absurd he h
            · exact absurd hx h
            · exact h
          exact ⟨_, initConfig_search_lookup os configFormatYAML profile v he hx hl⟩
        · exact ⟨_, initConfig_search_xdg os configFormatYAML profile v he hx⟩
      · exact ⟨_, initConfig_env os configFormatYAML profile v he⟩
    · exact ⟨_, initConfig_flag os configFormatYAML configFile profile v hc⟩
  · intro h
    simp only [not_or, not_not] at h
    obtain ⟨hc, he, hx, hl⟩ := h
    subst hc
    cases hu : os.UserConfigDir.2 with
    | none => exact absurd hu hl
    | some e =>
      exact ⟨_, initConfig_search_exit os configFormatYAML profile v he hx e hu, rfl⟩

/-- C10, amended, with a malformed config file found under `XDG_CONFIG_HOME`:
`initConfig` returns and prints the error. -/
theorem C10_initConfig_returns_or_exits_witness :
    ∃ v', initConfig
        (osOf [("XDG_CONFIG_HOME".toList, "/x".toList)] ([], none)
          (some ⟨false, "yaml: line 1".toList⟩))
        "yaml".toList [] "default".toList Viper.fresh =
      .ok (v', [["Found error: ".toList, "yaml: line 1".toList]]) :=
  (C10_initConfig_returns_or_exits
    (osOf [("XDG_CONFIG_HOME".toList, "/x".toList)] ([], none)
      (some ⟨false, "yaml: line 1".toList⟩))
    "yaml".toList [] "default".toList Viper.fresh).1 (by decide)

end Tibctl
